import Mathlib

/-!
# Verification of the `simple-biped` spring-contact simulator (`src/simu.py`)

Shallow embedding of the `Simu` class of `src/simu.py`: a sub-stepped
explicit-Euler simulation of a legged body whose two ankles are attached to
the ground by linear springs.  The external rigid-body engine (pinocchio:
`forwardKinematics`, `aba`, `integrate`) is modelled as an opaque `Engine`
record of fallible functions; the spatial algebra the script performs itself
(SE3 composition/inverse, force/motion actions, the rpy roll extraction, the
stiffness products and buffer writes) is embedded concretely.

Numbers are real; vectors of generalized coordinates are lists of reals.
-/

noncomputable section

namespace SimpleBiped

/-! ## Spatial algebra (the pinocchio value types used by `simu.py`) -/

/-- A 3-vector. -/
@[ext] structure Vec3 where
  x : ℝ
  y : ℝ
  z : ℝ

namespace Vec3

def zero : Vec3 := ⟨0, 0, 0⟩

def add (a b : Vec3) : Vec3 := ⟨a.x + b.x, a.y + b.y, a.z + b.z⟩

def neg (a : Vec3) : Vec3 := ⟨-a.x, -a.y, -a.z⟩

def smul (k : ℝ) (a : Vec3) : Vec3 := ⟨k * a.x, k * a.y, k * a.z⟩

/-- Cross product of 3-vectors. -/
def cross (a b : Vec3) : Vec3 :=
  ⟨a.y * b.z - a.z * b.y, a.z * b.x - a.x * b.z, a.x * b.y - a.y * b.x⟩

instance : Add Vec3 := ⟨Vec3.add⟩

instance : Neg Vec3 := ⟨Vec3.neg⟩

end Vec3

/-- A 3×3 real matrix, row-major fields `m<row><col>` (0-based). -/
@[ext] structure Mat3 where
  m00 : ℝ
  m01 : ℝ
  m02 : ℝ
  m10 : ℝ
  m11 : ℝ
  m12 : ℝ
  m20 : ℝ
  m21 : ℝ
  m22 : ℝ

namespace Mat3

/-- Identity matrix. -/
def one : Mat3 := ⟨1, 0, 0, 0, 1, 0, 0, 0, 1⟩

instance : One Mat3 := ⟨Mat3.one⟩

def transpose (M : Mat3) : Mat3 :=
  ⟨M.m00, M.m10, M.m20, M.m01, M.m11, M.m21, M.m02, M.m12, M.m22⟩

def mulVec (M : Mat3) (v : Vec3) : Vec3 :=
  ⟨M.m00 * v.x + M.m01 * v.y + M.m02 * v.z,
   M.m10 * v.x + M.m11 * v.y + M.m12 * v.z,
   M.m20 * v.x + M.m21 * v.y + M.m22 * v.z⟩

def mul (A B : Mat3) : Mat3 :=
  ⟨A.m00 * B.m00 + A.m01 * B.m10 + A.m02 * B.m20,
   A.m00 * B.m01 + A.m01 * B.m11 + A.m02 * B.m21,
   A.m00 * B.m02 + A.m01 * B.m12 + A.m02 * B.m22,
   A.m10 * B.m00 + A.m11 * B.m10 + A.m12 * B.m20,
   A.m10 * B.m01 + A.m11 * B.m11 + A.m12 * B.m21,
   A.m10 * B.m02 + A.m11 * B.m12 + A.m12 * B.m22,
   A.m20 * B.m00 + A.m21 * B.m10 + A.m22 * B.m20,
   A.m20 * B.m01 + A.m21 * B.m11 + A.m22 * B.m21,
   A.m20 * B.m02 + A.m21 * B.m12 + A.m22 * B.m22⟩

instance : Mul Mat3 := ⟨Mat3.mul⟩

def det (M : Mat3) : ℝ :=
  M.m00 * (M.m11 * M.m22 - M.m12 * M.m21)
    - M.m01 * (M.m10 * M.m22 - M.m12 * M.m20)
    + M.m02 * (M.m10 * M.m21 - M.m11 * M.m20)

/-- Matrix of cofactors: `cofactor M` satisfies
`(M v) × (M w) = (cofactor M) (v × w)` and `(cofactor M)ᵀ M = det M • 1`. -/
def cofactor (M : Mat3) : Mat3 :=
  ⟨M.m11 * M.m22 - M.m12 * M.m21,
   -(M.m10 * M.m22 - M.m12 * M.m20),
   M.m10 * M.m21 - M.m11 * M.m20,
   -(M.m01 * M.m22 - M.m02 * M.m21),
   M.m00 * M.m22 - M.m02 * M.m20,
   -(M.m00 * M.m21 - M.m01 * M.m20),
   M.m01 * M.m12 - M.m02 * M.m11,
   -(M.m00 * M.m12 - M.m02 * M.m10),
   M.m00 * M.m11 - M.m01 * M.m10⟩

/-- Negated diagonal matrix, as built by `-np.diagflat([a,b,c])`
(`src/simu.py` lines 57-58). -/
def negDiag (a b c : ℝ) : Mat3 := ⟨-a, 0, 0, 0, -b, 0, 0, 0, -c⟩

end Mat3

/-- A rotation matrix: orthogonal with determinant one. -/
def IsRotMat (R : Mat3) : Prop :=
  R.transpose * R = 1 ∧ R.det = 1

/-- A rigid transform (pinocchio `SE3`): rotation plus translation. -/
@[ext] structure SE3 where
  rot : Mat3
  trans : Vec3

namespace SE3

/-- Identity placement. -/
def one : SE3 := ⟨1, Vec3.zero⟩

instance : One SE3 := ⟨SE3.one⟩

/-- Composition of rigid transforms (pinocchio `SE3.__mul__` on `SE3`). -/
def mul (A B : SE3) : SE3 := ⟨A.rot * B.rot, A.rot.mulVec B.trans + A.trans⟩

instance : Mul SE3 := ⟨SE3.mul⟩

/-- Inverse of a rigid transform: `(R,p)⁻¹ = (Rᵀ, -Rᵀp)` (pinocchio `SE3.inverse`). -/
def inv (M : SE3) : SE3 := ⟨M.rot.transpose, -(M.rot.transpose.mulVec M.trans)⟩

end SE3

/-- A spatial force (pinocchio `Force`): linear and angular parts. -/
@[ext] structure Force where
  lin : Vec3
  ang : Vec3

namespace Force

/-- `se3.Force.Zero()`. -/
def zero : Force := ⟨Vec3.zero, Vec3.zero⟩

end Force

/-- A spatial velocity (pinocchio `Motion`). -/
@[ext] structure Motion where
  lin : Vec3
  ang : Vec3

namespace SE3

/-- Action of a rigid transform on a spatial force (pinocchio
`SE3.act` on `Force`): the linear part rotates, the angular part rotates and
gains the moment arm of the translation. -/
def act (M : SE3) (f : Force) : Force :=
  ⟨M.rot.mulVec f.lin,
   M.rot.mulVec f.ang + Vec3.cross M.trans (M.rot.mulVec f.lin)⟩

/-- Action of a rigid transform on a spatial velocity (pinocchio
`SE3.act` on `Motion`, used by `placement.inverse()*data.v[...]`). -/
def actM (M : SE3) (v : Motion) : Motion :=
  ⟨M.rot.mulVec v.lin + Vec3.cross M.trans (M.rot.mulVec v.ang),
   M.rot.mulVec v.ang⟩

end SE3

/-! ## rpy roll extraction (pinocchio `se3.rpy.matrixToRpy`, first component) -/

/-- Two-argument arctangent, modelled as the argument of the complex number
`x + i y`. -/
def atan2 (y x : ℝ) : ℝ := Complex.arg ⟨x, y⟩

/-- First component (roll) of `se3.rpy.matrixToRpy(R)`:
`atan2(R(2,1), R(2,2))`. -/
def rpyRoll (R : Mat3) : ℝ := atan2 R.m21 R.m22

/-! ## The reusable 6-component force buffers (`self.frf`, `self.flf`) -/

/-- A 6-component column vector, as produced by `zero(6)`; components 0-2 are
the linear part and 3-5 the angular part when read as a `Force`. -/
@[ext] structure Buf6 where
  c0 : ℝ
  c1 : ℝ
  c2 : ℝ
  c3 : ℝ
  c4 : ℝ
  c5 : ℝ

namespace Buf6

/-- `zero(6)`. -/
def zero : Buf6 := ⟨0, 0, 0, 0, 0, 0⟩

end Buf6

/-- The fancy-indexed assignment `buf[[1,2,3]] = w` of `src/simu.py`
lines 84 and 88: writes components 1, 2, 3, leaves 0, 4, 5 alone. -/
def writeSpring (b : Buf6) (w : Vec3) : Buf6 :=
  { b with c1 := w.x, c2 := w.y, c3 := w.z }

/-- `se3.Force(buf)`: read a 6-vector as a spatial force
(linear = components 0-2, angular = components 3-5). -/
def toForce (b : Buf6) : Force := ⟨⟨b.c0, b.c1, b.c2⟩, ⟨b.c3, b.c4, b.c5⟩⟩

/-- The reduced foot displacement of `src/simu.py` lines 80-81:
`np.vstack([Mrel.translation[1:], se3.rpy.matrixToRpy(Mrel.rotation)[0]])`,
i.e. the y and z translation components plus the roll angle of the relative
placement. -/
def footDisp (Mrel : SE3) : Vec3 := ⟨Mrel.trans.y, Mrel.trans.z, rpyRoll Mrel.rot⟩

/-! ## Generalized-coordinate vectors

Configuration, velocity, torque and acceleration vectors are numpy column
vectors in the source; here they are lists of reals. -/

/-- Componentwise sum, as in `vq + aq*dt`. -/
def listAdd (a b : List ℝ) : List ℝ := List.zipWith (fun x y => x + y) a b

/-- Scalar multiple, as in `aq*dt` and `vq*dt`. -/
def listSMul (k : ℝ) (a : List ℝ) : List ℝ := a.map (fun x => k * x)

/-! ## The external rigid-body engine and the robot model -/

/-- Failures surfaced while stepping. `nameError` models the Python
`NameError` raised when the module-level variable `v` read at
`src/simu.py` line 72 is undefined; the others stand for errors raised by
the engine collaborators (dimension mismatches etc.). -/
inductive SimErr where
  | nameError
  | dimMismatch
  | unknownFrame
  | other
deriving DecidableEq, Repr

/-- The slice of `robot.data` that `Simu.step` reads after the kinematics
refresh: frame placements `oMf`, joint placements `oMi`, and joint spatial
velocities `v`, indexed by integer handles. -/
structure Data where
  oMf : ℕ → SE3
  oMi : ℕ → SE3
  v : ℕ → Motion

/-- A named frame of the robot model: parent joint index and fixed placement
relative to the parent (`robot.model.frames[i]`). -/
structure Frame where
  parent : ℕ
  placement : SE3

/-- The immutable robot model data read by `Simu` (`robot.model`). -/
structure RobotModel where
  nq : ℕ
  nv : ℕ
  nbodies : ℕ
  getFrameId : String → ℕ
  frames : ℕ → Frame

/-- The external rigid-body dynamics engine (pinocchio), as an opaque record
of the three fallible operations `Simu` delegates to:
kinematics refresh (`se3.forwardKinematics` + `se3.framesKinematics`),
forward dynamics (`se3.aba`) and manifold integration (`se3.integrate`). -/
structure Engine where
  fk : List ℝ → List ℝ → Except SimErr Data
  aba : List ℝ → List ℝ → List ℝ → List Force → Except SimErr (List ℝ)
  integrate : List ℝ → List ℝ → Except SimErr (List ℝ)

/-- `ForceDict` (`src/simu.py` lines 14-18): build the length-`N` vector of
per-body forces, defaulting bodies absent from the dict to the zero force. -/
def ForceDict (fd : ℕ → Option Force) (N : ℕ) : List Force :=
  (List.range N).map (fun i => (fd i).getD Force.zero)

/-! ## The `Simu` object -/

/-- The fields of a `Simu` instance (`Simu.__init__`, `src/simu.py`
lines 27-58).  `aq` and `forces` are attributes first created inside
`step`, hence optional. -/
structure Simu where
  frf : Buf6
  flf : Buf6
  dt : ℝ
  ndt : ℕ
  robot : RobotModel
  NQ : ℕ
  NV : ℕ
  NB : ℕ
  RF : ℕ
  LF : ℕ
  RK : ℕ
  LK : ℕ
  Mrf0 : SE3
  Mlf0 : SE3
  Krf : Mat3
  Klf : Mat3
  forces : Option (List Force)
  aq : Option (List ℝ)

namespace Simu

/-- `Simu.__init__` (`src/simu.py` lines 27-58): record the model handles,
run the kinematics refresh at `q0` (its result is `data0`), copy the two
frame placements as rest poses, zero the two force buffers, and set the two
hard-coded stiffness matrices `-np.diagflat([20000.,200000.,0.])`. -/
def init (robot : RobotModel) (data0 : Data) (dt : ℝ) (ndt : ℕ) : Simu :=
  let RF := robot.getFrameId "rankle"
  let LF := robot.getFrameId "lankle"
  { frf := Buf6.zero
    flf := Buf6.zero
    dt := dt
    ndt := ndt
    robot := robot
    NQ := robot.nq
    NV := robot.nv
    NB := robot.nbodies
    RF := RF
    LF := LF
    RK := (robot.frames RF).parent
    LK := (robot.frames LF).parent
    Mrf0 := data0.oMf RF
    Mlf0 := data0.oMf LF
    Krf := Mat3.negDiag 20000 200000 0
    Klf := Mat3.negDiag 20000 200000 0
    forces := none
    aq := none }

/-- The updated right-foot force buffer of `src/simu.py` lines 75, 80, 83-84:
`frf[[1,2,3]] = Krf * qrf` with `qrf` the reduced displacement of the
relative placement `Mrf0⁻¹ * oMf[RF]`. -/
def frfNew (sim : Simu) (data : Data) : Buf6 :=
  writeSpring sim.frf (sim.Krf.mulVec (footDisp (sim.Mrf0.inv * data.oMf sim.RF)))

/-- The updated left-foot force buffer (`src/simu.py` lines 77, 81, 87-88). -/
def flfNew (sim : Simu) (data : Data) : Buf6 :=
  writeSpring sim.flf (sim.Klf.mulVec (footDisp (sim.Mlf0.inv * data.oMf sim.LF)))

/-- The right spring force transported to the right-knee joint frame
(`src/simu.py` lines 85-86): `(oMi[RK]⁻¹ * Mrf0).act(Force(frf))`. -/
def rkForce (sim : Simu) (data : Data) : Force :=
  ((data.oMi sim.RK).inv * sim.Mrf0).act (toForce (sim.frfNew data))

/-- The left spring force transported to the left-knee joint frame
(`src/simu.py` lines 89-90). -/
def lkForce (sim : Simu) (data : Data) : Force :=
  ((data.oMi sim.LK).inv * sim.Mlf0).act (toForce (sim.flfNew data))

/-- The per-body external force vector handed to `aba`
(`src/simu.py` line 92): `ForceDict({RK: rk_frf, LK: lk_flf}, NB)`.
Python dict semantics: if the two keys coincide, the later entry wins. -/
def stepForces (sim : Simu) (data : Data) : List Force :=
  ForceDict
    (fun i =>
      if i = sim.LK then some (sim.lkForce data)
      else if i = sim.RK then some (sim.rkForce data)
      else none)
    sim.NB

/-- The relative right-foot spatial velocity of `src/simu.py` line 76:
`frames[RF].placement.inverse() * data.v[RK]` (computed but never used). -/
def vrfOf (sim : Simu) (data : Data) : Motion :=
  ((sim.robot.frames sim.RF).placement.inv).actM (data.v sim.RK)

/-- The relative left-foot spatial velocity of `src/simu.py` line 78
(computed but never used). -/
def vlfOf (sim : Simu) (data : Data) : Motion :=
  ((sim.robot.frames sim.LF).placement.inv).actM (data.v sim.LK)

/-- The stepper object after the in-place mutations of `src/simu.py`
lines 83-92: the two force buffers are overwritten through lines 84/88 and
`self.forces` is set at line 92 (all of this happens before `aba` is
invoked). -/
def simAfter (sim : Simu) (data : Data) : Simu :=
  { sim with frf := sim.frfNew data, flf := sim.flfNew data,
             forces := some (sim.stepForces data) }

/-- Everything observable about one call to `Simu.step`:
`res` is the returned pair `(q, vq)` or the exception; `sim` is the stepper
object after the call (its buffers `frf`/`flf` and its `forces`/`aq`
attributes are mutated in place as the body proceeds); `vqObj` is the
content of the *caller's* velocity object after the call — `vq += aq*dt`
(line 95) updates that numpy array in place; `fkCall` records the
`(configuration, velocity)` pair actually passed to the kinematics refresh at
line 72, when execution reaches it; `vrf`/`vlf` are the (unused) relative
foot velocities of lines 76 and 78. -/
structure StepOut where
  res : Except SimErr (List ℝ × List ℝ)
  sim : Simu
  vqObj : List ℝ
  fkCall : Option (List ℝ × List ℝ)
  vrf : Option Motion
  vlf : Option Motion

/-- `Simu.step` (`src/simu.py` lines 65-99).  `globalV` is the value of the
module-level variable `v` (`none` when it is undefined, as when the module is
imported rather than run as a script): line 72 reads that variable, not the
`vq` argument.  `dtArg = none` models the default `dt = None`, replaced by
`self.dt`. -/
def step (E : Engine) (sim : Simu) (globalV : Option (List ℝ))
    (q vq tauq : List ℝ) (dtArg : Option ℝ) : StepOut :=
  let dt := dtArg.getD sim.dt
  match globalV with
  | none => ⟨.error .nameError, sim, vq, none, none, none⟩
  | some v =>
    match E.fk q v with
    | .error e => ⟨.error e, sim, vq, some (q, v), none, none⟩
    | .ok data =>
      let vrf := sim.vrfOf data
      let vlf := sim.vlfOf data
      let sim1 := sim.simAfter data
      match E.aba q vq tauq (sim.stepForces data) with
      | .error e => ⟨.error e, sim1, vq, some (q, v), some vrf, some vlf⟩
      | .ok aq =>
        let vq2 := listAdd vq (listSMul dt aq)
        match E.integrate q (listSMul dt vq2) with
        | .error e => ⟨.error e, sim1, vq2, some (q, v), some vrf, some vlf⟩
        | .ok q2 =>
          ⟨.ok (q2, vq2), { sim1 with aq := some aq }, vq2, some (q, v),
           some vrf, some vlf⟩

/-- The loop of `Simu.simu` (`src/simu.py` lines 103-104): `n` remaining
iterations of `q,v = self.step(q,v,tau,self.dt/self.ndt)`; a raised
exception aborts the loop and propagates. -/
def simuLoop (E : Engine) (globalV : Option (List ℝ)) (tauq : List ℝ) :
    ℕ → Simu → List ℝ → List ℝ → Except SimErr (List ℝ × List ℝ) × Simu
  | 0, sim, q, v => (.ok (q, v), sim)
  | n + 1, sim, q, v =>
    let out := sim.step E globalV q v tauq (some (sim.dt / (sim.ndt : ℝ)))
    match out.res with
    | .error e => (.error e, out.sim)
    | .ok (q2, v2) => simuLoop E globalV tauq n out.sim q2 v2

/-- `Simu.simu` (`src/simu.py` lines 101-105): run `self.ndt` sub-steps,
threading the state through, and return the final `(q, v)` (or the first
exception), together with the stepper object after the call. -/
def simu (E : Engine) (sim : Simu) (globalV : Option (List ℝ))
    (q v tauq : List ℝ) : Except SimErr (List ℝ × List ℝ) × Simu :=
  simuLoop E globalV tauq sim.ndt sim q v

/-- The spec's description of `advanceStep`: `n` sequential calls to the
sub-step operation, each of the *fixed* duration `d`, threading the updated
configuration and velocity through. -/
def stepSeq (E : Engine) (globalV : Option (List ℝ)) (tauq : List ℝ) (d : ℝ) :
    ℕ → Simu → List ℝ → List ℝ → Except SimErr (List ℝ × List ℝ) × Simu
  | 0, sim, q, v => (.ok (q, v), sim)
  | n + 1, sim, q, v =>
    let out := sim.step E globalV q v tauq (some d)
    match out.res with
    | .error e => (.error e, out.sim)
    | .ok (q2, v2) => stepSeq E globalV tauq d n out.sim q2 v2

end Simu

/-- One external call on a `Simu` object: either a sub-step (`Simu.step`) or
a full step (`Simu.simu`). -/
inductive SimCall where
  | step (globalV : Option (List ℝ)) (q vq tauq : List ℝ) (dtArg : Option ℝ)
  | simu (globalV : Option (List ℝ)) (q v tauq : List ℝ)

/-- Run a sequence of step/simu calls against a stepper, keeping the stepper
object as it is mutated along the way. -/
def runCalls (E : Engine) : Simu → List SimCall → Simu
  | sim, [] => sim
  | sim, c :: rest =>
    let sim2 :=
      match c with
      | .step gv q vq tauq dtArg => (sim.step E gv q vq tauq dtArg).sim
      | .simu gv q v tauq => (Simu.simu E sim gv q v tauq).2
    runCalls E sim2 rest

/-! ## Concrete instances used to evaluate the embedding -/

/-- A concrete kinematics result: every frame and joint at the identity
placement, every joint at rest. -/
def dataW : Data := ⟨fun _ => 1, fun _ => 1, fun _ => ⟨Vec3.zero, Vec3.zero⟩⟩

/-- A concrete robot model with the two ankle frames mounted at identity on
joint 1. -/
def robotW : RobotModel :=
  ⟨7, 6, 4, fun s => if s = "rankle" then 2 else 3, fun _ => ⟨1, 1⟩⟩

/-- An engine whose three collaborators all succeed with constant results. -/
def engOK : Engine :=
  ⟨fun _ _ => .ok dataW, fun _ _ _ _ => .ok [1], fun _ _ => .ok [2]⟩

/-- An engine whose kinematics refresh rejects its input. -/
def engFkFail : Engine :=
  ⟨fun _ _ => .error .dimMismatch, fun _ _ _ _ => .error .other,
   fun _ _ => .error .other⟩

/-- An engine whose configuration-integration step fails after a successful
forward-dynamics solve. -/
def engIntFail : Engine :=
  ⟨fun _ _ => .ok dataW, fun _ _ _ _ => .ok [1], fun _ _ => .error .other⟩

/-- An engine whose forward-dynamics solve reports an enormous acceleration
(standing in for a numerically diverged value). -/
def engBig : Engine :=
  ⟨fun _ _ => .ok dataW, fun _ _ _ _ => .ok [1000000000], fun _ _ => .ok [0]⟩

/-- A concrete stepper: step duration 1 split into 2 sub-steps. -/
def simW : Simu := Simu.init robotW dataW 1 2

/-- A concrete stepper constructed with a sub-step count of zero. -/
def simW0 : Simu := Simu.init robotW dataW 1 0

/-! ## Algebra lemmas for 3×3 matrices and rotations -/

theorem Vec3.add_def (a b : Vec3) : a + b = ⟨a.x + b.x, a.y + b.y, a.z + b.z⟩ := rfl

theorem Vec3.neg_def (a : Vec3) : -a = ⟨-a.x, -a.y, -a.z⟩ := rfl

theorem Mat3.mul_entries (A B : Mat3) : A * B = A.mul B := rfl

theorem Mat3.one_entries : (1 : Mat3) = Mat3.one := rfl

theorem SE3.mul_parts (A B : SE3) :
    A * B = ⟨A.rot * B.rot, A.rot.mulVec B.trans + A.trans⟩ := rfl

theorem SE3.one_parts : (1 : SE3) = ⟨1, Vec3.zero⟩ := rfl

namespace Mat3

/-- Scalar matrix `k • 1`. -/
def scalar (k : ℝ) : Mat3 := ⟨k, 0, 0, 0, k, 0, 0, 0, k⟩

theorem scalar_one : scalar 1 = 1 := rfl

theorem transpose_transpose (M : Mat3) : M.transpose.transpose = M := rfl

theorem det_transpose (M : Mat3) : M.transpose.det = M.det := by
  simp only [transpose, det]; ring

theorem mul_assoc3 (A B C : Mat3) : A * B * C = A * (B * C) := by
  ext <;> simp only [mul_entries, mul] <;> ring

theorem mul_one3 (A : Mat3) : A * 1 = A := by
  ext <;> simp only [mul_entries, one_entries, mul, one] <;> ring

theorem one_mul3 (A : Mat3) : 1 * A = A := by
  ext <;> simp only [mul_entries, one_entries, mul, one] <;> ring

theorem one_mulVec (v : Vec3) : (1 : Mat3).mulVec v = v := by
  ext <;> simp only [one_entries, one, mulVec] <;> ring

theorem mul_mulVec (A B : Mat3) (v : Vec3) :
    (A * B).mulVec v = A.mulVec (B.mulVec v) := by
  ext <;> simp only [mul_entries, mul, mulVec] <;> ring

theorem mulVec_add (M : Mat3) (a b : Vec3) :
    M.mulVec (a + b) = M.mulVec a + M.mulVec b := by
  ext <;> simp only [mulVec, Vec3.add_def] <;> ring

theorem mulVec_zero (M : Mat3) : M.mulVec Vec3.zero = Vec3.zero := by
  ext <;> simp only [mulVec, Vec3.zero] <;> ring

/-- Laplace-expansion identity: `M · (cofactor M)ᵀ = det M · 1`. -/
theorem mul_cofactorT (M : Mat3) :
    M * (M.cofactor).transpose = scalar M.det := by
  ext <;> simp only [mul_entries, mul, cofactor, transpose, scalar, det] <;> ring

/-- Laplace-expansion identity: `(cofactor M)ᵀ · M = det M · 1`. -/
theorem cofactorT_mul (M : Mat3) :
    (M.cofactor).transpose * M = scalar M.det := by
  ext <;> simp only [mul_entries, mul, cofactor, transpose, scalar, det] <;> ring

/-- The cross product is equivariant under any 3×3 matrix up to the cofactor
matrix: `(M a) × (M b) = cofactor M (a × b)`. -/
theorem cross_mulVec (M : Mat3) (a b : Vec3) :
    Vec3.cross (M.mulVec a) (M.mulVec b) = (M.cofactor).mulVec (Vec3.cross a b) := by
  ext <;> simp only [mulVec, cofactor, Vec3.cross] <;> ring

end Mat3

theorem Vec3.cross_neg_left (a b : Vec3) :
    Vec3.cross (-a) b = -(Vec3.cross a b) := by
  ext <;> simp only [Vec3.cross, Vec3.neg_def] <;> ring

/-- A rotation matrix is also orthogonal on the right: `R Rᵀ = 1`. -/
theorem IsRotMat.mul_transpose {R : Mat3} (h : IsRotMat R) :
    R * R.transpose = 1 := by
  obtain ⟨h1, h2⟩ := h
  have e1 : R * (R.cofactor).transpose = 1 := by
    rw [Mat3.mul_cofactorT, h2, Mat3.scalar_one]
  have key : R.transpose = (R.cofactor).transpose := by
    calc R.transpose = R.transpose * (R * (R.cofactor).transpose) := by
          rw [e1, Mat3.mul_one3]
      _ = R.transpose * R * (R.cofactor).transpose := by rw [Mat3.mul_assoc3]
      _ = (R.cofactor).transpose := by rw [h1, Mat3.one_mul3]
  rw [key]; exact e1

/-- A rotation matrix equals its cofactor matrix. -/
theorem IsRotMat.cofactor_eq {R : Mat3} (h : IsRotMat R) :
    R.cofactor = R := by
  obtain ⟨h1, h2⟩ := h
  have e2 : (R.cofactor).transpose * R = 1 := by
    rw [Mat3.cofactorT_mul, h2, Mat3.scalar_one]
  have key : (R.cofactor).transpose = R.transpose := by
    calc (R.cofactor).transpose
        = (R.cofactor).transpose * (R * R.transpose) := by
          rw [IsRotMat.mul_transpose ⟨h1, h2⟩, Mat3.mul_one3]
      _ = (R.cofactor).transpose * R * R.transpose := by rw [Mat3.mul_assoc3]
      _ = R.transpose := by rw [e2, Mat3.one_mul3]
  calc R.cofactor = ((R.cofactor).transpose).transpose := rfl
    _ = (R.transpose).transpose := by rw [key]
    _ = R := rfl

/-- The transpose of a rotation matrix is a rotation matrix. -/
theorem IsRotMat.transpose {R : Mat3} (h : IsRotMat R) :
    IsRotMat R.transpose := by
  refine ⟨?_, ?_⟩
  · rw [Mat3.transpose_transpose]; exact h.mul_transpose
  · rw [Mat3.det_transpose]; exact h.2

/-- For a rigid transform (rotation part orthogonal), `M⁻¹ · M = 1`. -/
theorem SE3.inv_mul_self {M : SE3} (h : IsRotMat M.rot) : M.inv * M = 1 := by
  obtain ⟨h1, _⟩ := h
  ext
  · exact congrArg Mat3.m00 h1
  · exact congrArg Mat3.m01 h1
  · exact congrArg Mat3.m02 h1
  · exact congrArg Mat3.m10 h1
  · exact congrArg Mat3.m11 h1
  · exact congrArg Mat3.m12 h1
  · exact congrArg Mat3.m20 h1
  · exact congrArg Mat3.m21 h1
  · exact congrArg Mat3.m22 h1
  · show (M.inv.rot.mulVec M.trans + M.inv.trans).x = Vec3.zero.x
    simp only [SE3.inv, Vec3.add_def, Vec3.neg_def, Vec3.zero]; ring
  · show (M.inv.rot.mulVec M.trans + M.inv.trans).y = Vec3.zero.y
    simp only [SE3.inv, Vec3.add_def, Vec3.neg_def, Vec3.zero]; ring
  · show (M.inv.rot.mulVec M.trans + M.inv.trans).z = Vec3.zero.z
    simp only [SE3.inv, Vec3.add_def, Vec3.neg_def, Vec3.zero]; ring

/-! ## Roll of the identity rotation -/

theorem rpyRoll_one : rpyRoll (1 : Mat3) = 0 := by
  have h : (⟨1, 0⟩ : ℂ) = 1 := by
    apply Complex.ext <;> simp
  show Complex.arg ⟨1, 0⟩ = 0
  rw [h, Complex.arg_one]

theorem footDisp_one : footDisp 1 = Vec3.zero := by
  simp only [footDisp, SE3.one_parts, rpyRoll_one, Vec3.zero]

/-! ## Structural lemmas about `Simu.step` and the stepping loops -/

namespace Simu

theorem step_none (E : Engine) (sim : Simu) (q vq tauq : List ℝ) (dtArg : Option ℝ) :
    sim.step E none q vq tauq dtArg = ⟨.error .nameError, sim, vq, none, none, none⟩ :=
  rfl

theorem step_fk_error {E : Engine} {sim : Simu} {gv q : List ℝ} {e : SimErr}
    (vq tauq : List ℝ) (dtArg : Option ℝ) (hfk : E.fk q gv = .error e) :
    sim.step E (some gv) q vq tauq dtArg =
      ⟨.error e, sim, vq, some (q, gv), none, none⟩ := by
  simp only [Simu.step, hfk]

theorem step_aba_error {E : Engine} {sim : Simu} {gv q vq tauq : List ℝ}
    {dtArg : Option ℝ} {data : Data} {e : SimErr} (hfk : E.fk q gv = .ok data)
    (hab : E.aba q vq tauq (sim.stepForces data) = .error e) :
    sim.step E (some gv) q vq tauq dtArg =
      ⟨.error e, sim.simAfter data, vq, some (q, gv),
       some (sim.vrfOf data), some (sim.vlfOf data)⟩ := by
  simp only [Simu.step, hfk, hab]

theorem step_int_error {E : Engine} {sim : Simu} {gv q vq tauq : List ℝ}
    {dtArg : Option ℝ} {data : Data} {aq : List ℝ} {e : SimErr}
    (hfk : E.fk q gv = .ok data)
    (hab : E.aba q vq tauq (sim.stepForces data) = .ok aq)
    (hint : E.integrate q (listSMul (dtArg.getD sim.dt)
        (listAdd vq (listSMul (dtArg.getD sim.dt) aq))) = .error e) :
    sim.step E (some gv) q vq tauq dtArg =
      ⟨.error e, sim.simAfter data,
       listAdd vq (listSMul (dtArg.getD sim.dt) aq), some (q, gv),
       some (sim.vrfOf data), some (sim.vlfOf data)⟩ := by
  simp only [Simu.step, hfk, hab, hint]

theorem step_ok {E : Engine} {sim : Simu} {gv q vq tauq : List ℝ}
    {dtArg : Option ℝ} {data : Data} {aq q2 : List ℝ}
    (hfk : E.fk q gv = .ok data)
    (hab : E.aba q vq tauq (sim.stepForces data) = .ok aq)
    (hint : E.integrate q (listSMul (dtArg.getD sim.dt)
        (listAdd vq (listSMul (dtArg.getD sim.dt) aq))) = .ok q2) :
    sim.step E (some gv) q vq tauq dtArg =
      ⟨.ok (q2, listAdd vq (listSMul (dtArg.getD sim.dt) aq)),
       { sim.simAfter data with aq := some aq },
       listAdd vq (listSMul (dtArg.getD sim.dt) aq), some (q, gv),
       some (sim.vrfOf data), some (sim.vlfOf data)⟩ := by
  simp only [Simu.step, hfk, hab, hint]

/-- One sub-step mutates only the force buffers and the `forces` and `aq`
attributes of the stepper object. -/
theorem step_sim_fields (E : Engine) (sim : Simu) (gv : Option (List ℝ))
    (q vq tauq : List ℝ) (dtArg : Option ℝ) :
    ∃ b1 b2 fo a, (sim.step E gv q vq tauq dtArg).sim =
      { sim with frf := b1, flf := b2, forces := fo, aq := a } := by
  cases gv with
  | none => exact ⟨sim.frf, sim.flf, sim.forces, sim.aq, rfl⟩
  | some v =>
    cases hfk : E.fk q v with
    | error e =>
      rw [step_fk_error vq tauq dtArg hfk]
      exact ⟨sim.frf, sim.flf, sim.forces, sim.aq, rfl⟩
    | ok data =>
      cases hab : E.aba q vq tauq (sim.stepForces data) with
      | error e =>
        rw [step_aba_error hfk hab]
        exact ⟨sim.frfNew data, sim.flfNew data, some (sim.stepForces data), sim.aq, rfl⟩
      | ok aq =>
        cases hint : E.integrate q (listSMul (dtArg.getD sim.dt)
            (listAdd vq (listSMul (dtArg.getD sim.dt) aq))) with
        | error e =>
          rw [step_int_error hfk hab hint]
          exact ⟨sim.frfNew data, sim.flfNew data, some (sim.stepForces data), sim.aq, rfl⟩
        | ok q2 =>
          rw [step_ok hfk hab hint]
          exact ⟨sim.frfNew data, sim.flfNew data, some (sim.stepForces data), some aq, rfl⟩

/-- The constant fields of the stepper (rest poses, stiffness matrices, time
step, sub-step count, robot handles) survive one sub-step. -/
theorem step_preserves (E : Engine) (sim : Simu) (gv : Option (List ℝ))
    (q vq tauq : List ℝ) (dtArg : Option ℝ) :
    (sim.step E gv q vq tauq dtArg).sim.Mrf0 = sim.Mrf0 ∧
    (sim.step E gv q vq tauq dtArg).sim.Mlf0 = sim.Mlf0 ∧
    (sim.step E gv q vq tauq dtArg).sim.Krf = sim.Krf ∧
    (sim.step E gv q vq tauq dtArg).sim.Klf = sim.Klf ∧
    (sim.step E gv q vq tauq dtArg).sim.dt = sim.dt ∧
    (sim.step E gv q vq tauq dtArg).sim.ndt = sim.ndt := by
  obtain ⟨b1, b2, fo, a, h⟩ := step_sim_fields E sim gv q vq tauq dtArg
  rw [h]
  exact ⟨rfl, rfl, rfl, rfl, rfl, rfl⟩

/-- Whenever the module-level velocity variable is defined, the kinematics
refresh of `src/simu.py` line 72 is invoked with the configuration argument
and that module-level variable. -/
theorem step_fkCall (E : Engine) (sim : Simu) (gv q vq tauq : List ℝ)
    (dtArg : Option ℝ) :
    (sim.step E (some gv) q vq tauq dtArg).fkCall = some (q, gv) := by
  cases hfk : E.fk q gv with
  | error e => rw [step_fk_error vq tauq dtArg hfk]
  | ok data =>
    cases hab : E.aba q vq tauq (sim.stepForces data) with
    | error e => rw [step_aba_error hfk hab]
    | ok aq =>
      cases hint : E.integrate q (listSMul (dtArg.getD sim.dt)
          (listAdd vq (listSMul (dtArg.getD sim.dt) aq))) with
      | error e => rw [step_int_error hfk hab hint]
      | ok q2 => rw [step_ok hfk hab hint]

/-- After a successful kinematics refresh the right force buffer holds
exactly the freshly written spring values, whatever happens later in the
sub-step. -/
theorem step_frf {E : Engine} {sim : Simu} {gv q : List ℝ} {data : Data}
    (vq tauq : List ℝ) (dtArg : Option ℝ) (hfk : E.fk q gv = .ok data) :
    (sim.step E (some gv) q vq tauq dtArg).sim.frf = sim.frfNew data := by
  cases hab : E.aba q vq tauq (sim.stepForces data) with
  | error e => rw [step_aba_error hfk hab]; rfl
  | ok aq =>
    cases hint : E.integrate q (listSMul (dtArg.getD sim.dt)
        (listAdd vq (listSMul (dtArg.getD sim.dt) aq))) with
    | error e => rw [step_int_error hfk hab hint]; rfl
    | ok q2 => rw [step_ok hfk hab hint]; rfl

/-- Same for the left force buffer. -/
theorem step_flf {E : Engine} {sim : Simu} {gv q : List ℝ} {data : Data}
    (vq tauq : List ℝ) (dtArg : Option ℝ) (hfk : E.fk q gv = .ok data) :
    (sim.step E (some gv) q vq tauq dtArg).sim.flf = sim.flfNew data := by
  cases hab : E.aba q vq tauq (sim.stepForces data) with
  | error e => rw [step_aba_error hfk hab]; rfl
  | ok aq =>
    cases hint : E.integrate q (listSMul (dtArg.getD sim.dt)
        (listAdd vq (listSMul (dtArg.getD sim.dt) aq))) with
    | error e => rw [step_int_error hfk hab hint]; rfl
    | ok q2 => rw [step_ok hfk hab hint]; rfl

/-- The constant fields of the stepper survive the `simu` loop. -/
theorem simuLoop_preserves (E : Engine) (gv : Option (List ℝ)) (tauq : List ℝ) :
    ∀ (n : ℕ) (sim : Simu) (q v : List ℝ),
      (simuLoop E gv tauq n sim q v).2.Mrf0 = sim.Mrf0 ∧
      (simuLoop E gv tauq n sim q v).2.Mlf0 = sim.Mlf0 ∧
      (simuLoop E gv tauq n sim q v).2.Krf = sim.Krf ∧
      (simuLoop E gv tauq n sim q v).2.Klf = sim.Klf ∧
      (simuLoop E gv tauq n sim q v).2.dt = sim.dt ∧
      (simuLoop E gv tauq n sim q v).2.ndt = sim.ndt := by
  intro n
  induction n with
  | zero => exact fun sim q v => ⟨rfl, rfl, rfl, rfl, rfl, rfl⟩
  | succ n ih =>
    intro sim q v
    have hstep := step_preserves E sim gv q v tauq (some (sim.dt / (sim.ndt : ℝ)))
    simp only [simuLoop]
    cases hres : (sim.step E gv q v tauq (some (sim.dt / (sim.ndt : ℝ)))).res with
    | error e => exact hstep
    | ok p =>
      have ihp := ih (sim.step E gv q v tauq (some (sim.dt / (sim.ndt : ℝ)))).sim p.1 p.2
      refine ⟨?_, ?_, ?_, ?_, ?_, ?_⟩ <;>
        simp only [ihp.1, ihp.2.1, ihp.2.2.1, ihp.2.2.2.1, ihp.2.2.2.2.1,
          ihp.2.2.2.2.2, hstep.1, hstep.2.1, hstep.2.2.1, hstep.2.2.2.1,
          hstep.2.2.2.2.1, hstep.2.2.2.2.2]

/-- One sub-step never touches components 0, 4, 5 of either force buffer. -/
theorem step_buf_untouched (E : Engine) (sim : Simu) (gv : Option (List ℝ))
    (q vq tauq : List ℝ) (dtArg : Option ℝ) :
    (sim.step E gv q vq tauq dtArg).sim.frf.c0 = sim.frf.c0 ∧
    (sim.step E gv q vq tauq dtArg).sim.frf.c4 = sim.frf.c4 ∧
    (sim.step E gv q vq tauq dtArg).sim.frf.c5 = sim.frf.c5 ∧
    (sim.step E gv q vq tauq dtArg).sim.flf.c0 = sim.flf.c0 ∧
    (sim.step E gv q vq tauq dtArg).sim.flf.c4 = sim.flf.c4 ∧
    (sim.step E gv q vq tauq dtArg).sim.flf.c5 = sim.flf.c5 := by
  cases gv with
  | none => exact ⟨rfl, rfl, rfl, rfl, rfl, rfl⟩
  | some v =>
    cases hfk : E.fk q v with
    | error e =>
      rw [step_fk_error vq tauq dtArg hfk]
      exact ⟨rfl, rfl, rfl, rfl, rfl, rfl⟩
    | ok data =>
      cases hab : E.aba q vq tauq (sim.stepForces data) with
      | error e =>
        rw [step_aba_error hfk hab]
        exact ⟨rfl, rfl, rfl, rfl, rfl, rfl⟩
      | ok aq =>
        cases hint : E.integrate q (listSMul (dtArg.getD sim.dt)
            (listAdd vq (listSMul (dtArg.getD sim.dt) aq))) with
        | error e =>
          rw [step_int_error hfk hab hint]
          exact ⟨rfl, rfl, rfl, rfl, rfl, rfl⟩
        | ok q2 =>
          rw [step_ok hfk hab hint]
          exact ⟨rfl, rfl, rfl, rfl, rfl, rfl⟩

/-- The `simu` loop never touches components 0, 4, 5 of either force buffer. -/
theorem simuLoop_buf_untouched (E : Engine) (gv : Option (List ℝ)) (tauq : List ℝ) :
    ∀ (n : ℕ) (sim : Simu) (q v : List ℝ),
      (simuLoop E gv tauq n sim q v).2.frf.c0 = sim.frf.c0 ∧
      (simuLoop E gv tauq n sim q v).2.frf.c4 = sim.frf.c4 ∧
      (simuLoop E gv tauq n sim q v).2.frf.c5 = sim.frf.c5 ∧
      (simuLoop E gv tauq n sim q v).2.flf.c0 = sim.flf.c0 ∧
      (simuLoop E gv tauq n sim q v).2.flf.c4 = sim.flf.c4 ∧
      (simuLoop E gv tauq n sim q v).2.flf.c5 = sim.flf.c5 := by
  intro n
  induction n with
  | zero => exact fun sim q v => ⟨rfl, rfl, rfl, rfl, rfl, rfl⟩
  | succ n ih =>
    intro sim q v
    have hstep := step_buf_untouched E sim gv q v tauq (some (sim.dt / (sim.ndt : ℝ)))
    simp only [simuLoop]
    cases hres : (sim.step E gv q v tauq (some (sim.dt / (sim.ndt : ℝ)))).res with
    | error e => exact hstep
    | ok p =>
      have ihp := ih (sim.step E gv q v tauq (some (sim.dt / (sim.ndt : ℝ)))).sim p.1 p.2
      refine ⟨?_, ?_, ?_, ?_, ?_, ?_⟩ <;>
        simp only [ihp.1, ihp.2.1, ihp.2.2.1, ihp.2.2.2.1, ihp.2.2.2.2.1,
          ihp.2.2.2.2.2, hstep.1, hstep.2.1, hstep.2.2.1, hstep.2.2.2.1,
          hstep.2.2.2.2.1, hstep.2.2.2.2.2]

end Simu

/-- No sequence of `step`/`simu` calls touches components 0, 4, 5 of either
force buffer. -/
theorem runCalls_buf_untouched (E : Engine) :
    ∀ (calls : List SimCall) (sim : Simu),
      (runCalls E sim calls).frf.c0 = sim.frf.c0 ∧
      (runCalls E sim calls).frf.c4 = sim.frf.c4 ∧
      (runCalls E sim calls).frf.c5 = sim.frf.c5 ∧
      (runCalls E sim calls).flf.c0 = sim.flf.c0 ∧
      (runCalls E sim calls).flf.c4 = sim.flf.c4 ∧
      (runCalls E sim calls).flf.c5 = sim.flf.c5 := by
  intro calls
  induction calls with
  | nil => exact fun sim => ⟨rfl, rfl, rfl, rfl, rfl, rfl⟩
  | cons c rest ih =>
    intro sim
    cases c with
    | step gv q vq tauq dtArg =>
      have h := Simu.step_buf_untouched E sim gv q vq tauq dtArg
      have h2 := ih (sim.step E gv q vq tauq dtArg).sim
      simp only [runCalls]
      exact ⟨h2.1.trans h.1, h2.2.1.trans h.2.1, h2.2.2.1.trans h.2.2.1,
        h2.2.2.2.1.trans h.2.2.2.1, h2.2.2.2.2.1.trans h.2.2.2.2.1,
        h2.2.2.2.2.2.trans h.2.2.2.2.2⟩
    | simu gv q v tauq =>
      have h := Simu.simuLoop_buf_untouched E gv tauq sim.ndt sim q v
      have h2 := ih (Simu.simu E sim gv q v tauq).2
      simp only [runCalls]
      exact ⟨h2.1.trans h.1, h2.2.1.trans h.2.1, h2.2.2.1.trans h.2.2.1,
        h2.2.2.2.1.trans h.2.2.2.1, h2.2.2.2.2.1.trans h.2.2.2.2.1,
        h2.2.2.2.2.2.trans h.2.2.2.2.2⟩

namespace Simu

/-- The `simu` loop mutates only the force buffers and the `forces`/`aq`
attributes of the stepper object. -/
theorem simuLoop_fields (E : Engine) (gv : Option (List ℝ)) (tauq : List ℝ) :
    ∀ (n : ℕ) (sim : Simu) (q v : List ℝ),
      ∃ b1 b2 fo a, (simuLoop E gv tauq n sim q v).2 =
        { sim with frf := b1, flf := b2, forces := fo, aq := a } := by
  intro n
  induction n with
  | zero => exact fun sim q v => ⟨sim.frf, sim.flf, sim.forces, sim.aq, rfl⟩
  | succ n ih =>
    intro sim q v
    obtain ⟨b1, b2, fo, a, hstep⟩ :=
      step_sim_fields E sim gv q v tauq (some (sim.dt / (sim.ndt : ℝ)))
    simp only [simuLoop]
    cases hres : (sim.step E gv q v tauq (some (sim.dt / (sim.ndt : ℝ)))).res with
    | error e => exact ⟨b1, b2, fo, a, hstep⟩
    | ok p =>
      obtain ⟨c1, c2, go, ar, hrec⟩ :=
        ih (sim.step E gv q v tauq (some (sim.dt / (sim.ndt : ℝ)))).sim p.1 p.2
      refine ⟨c1, c2, go, ar, ?_⟩
      rw [hrec, hstep]

/-- The `simu` loop is exactly a sequence of sub-steps of the fixed duration
`dt/ndt` read off the initial stepper (the two fields never change while the
loop runs). -/
theorem simuLoop_eq_stepSeq (E : Engine) (gv : Option (List ℝ)) (tauq : List ℝ)
    (d0 : ℝ) (n0 : ℕ) :
    ∀ (n : ℕ) (sim : Simu) (q v : List ℝ), sim.dt = d0 → sim.ndt = n0 →
      simuLoop E gv tauq n sim q v =
        stepSeq E gv tauq (d0 / (n0 : ℝ)) n sim q v := by
  intro n
  induction n with
  | zero => intro sim q v _ _; rfl
  | succ n ih =>
    intro sim q v hd hn
    have hpres := step_preserves E sim gv q v tauq (some (d0 / (n0 : ℝ)))
    simp only [simuLoop, stepSeq, hd, hn]
    cases hres : (sim.step E gv q v tauq (some (d0 / (n0 : ℝ)))).res with
    | error e => rfl
    | ok p =>
      exact ih (sim.step E gv q v tauq (some (d0 / (n0 : ℝ)))).sim p.1 p.2
        (hpres.2.2.2.2.1.trans hd) (hpres.2.2.2.2.2.trans hn)

end Simu

/-- A sequence of `step`/`simu` calls mutates only the force buffers and the
`forces`/`aq` attributes of the stepper object. -/
theorem runCalls_fields (E : Engine) :
    ∀ (calls : List SimCall) (sim : Simu),
      ∃ b1 b2 fo a, runCalls E sim calls =
        { sim with frf := b1, flf := b2, forces := fo, aq := a } := by
  intro calls
  induction calls with
  | nil => exact fun sim => ⟨sim.frf, sim.flf, sim.forces, sim.aq, rfl⟩
  | cons c rest ih =>
    intro sim
    cases c with
    | step gv q vq tauq dtArg =>
      obtain ⟨b1, b2, fo, a, h1⟩ := Simu.step_sim_fields E sim gv q vq tauq dtArg
      obtain ⟨c1, c2, go, ar, h2⟩ := ih (sim.step E gv q vq tauq dtArg).sim
      refine ⟨c1, c2, go, ar, ?_⟩
      simp only [runCalls]
      rw [h2, h1]
    | simu gv q v tauq =>
      obtain ⟨b1, b2, fo, a, h1⟩ :=
        Simu.simuLoop_fields E gv tauq sim.ndt sim q v
      have h1a : (Simu.simu E sim gv q v tauq).2 =
          { sim with frf := b1, flf := b2, forces := fo, aq := a } := h1
      obtain ⟨c1, c2, go, ar, h2⟩ := ih (Simu.simu E sim gv q v tauq).2
      refine ⟨c1, c2, go, ar, ?_⟩
      simp only [runCalls]
      rw [h2, h1a]

/-- The identity matrix is a rotation. -/
theorem isRotMat_one : IsRotMat (1 : Mat3) := by
  constructor
  · ext <;>
      simp only [Mat3.transpose, Mat3.mul_entries, Mat3.mul, Mat3.one_entries, Mat3.one] <;>
      norm_num
  · simp only [Mat3.det, Mat3.one_entries, Mat3.one]; norm_num

/-! ## Claim theorems -/

/-- C9: the force-transport operation used by the spring model (`SE3.act` on
a spatial force, as in `rkForce`/`lkForce`) transports by the identity
transform without change, and transporting by a rigid transform `T` and then
by `T⁻¹` returns the original force. -/
theorem C9_force_transport_id_roundtrip :
    (∀ f : Force, (1 : SE3).act f = f) ∧
    ∀ (T : SE3) (f : Force), IsRotMat T.rot → (T.inv).act (T.act f) = f := by
  constructor
  · intro f
    ext <;>
      simp only [SE3.one_parts, SE3.act, Mat3.one_mulVec, Vec3.cross, Vec3.zero,
        Vec3.add_def] <;> ring
  · intro T f hR
    have hco : (T.rot.transpose).cofactor = T.rot.transpose :=
      IsRotMat.cofactor_eq hR.transpose
    have horth : T.rot.transpose * T.rot = 1 := hR.1
    have hlin : T.rot.transpose.mulVec (T.rot.mulVec f.lin) = f.lin := by
      rw [← Mat3.mul_mulVec, horth, Mat3.one_mulVec]
    have hang : T.rot.transpose.mulVec (T.rot.mulVec f.ang) = f.ang := by
      rw [← Mat3.mul_mulVec, horth, Mat3.one_mulVec]
    have hcross2 :
        Vec3.cross (T.rot.transpose.mulVec T.trans) f.lin =
          T.rot.transpose.mulVec (Vec3.cross T.trans (T.rot.mulVec f.lin)) := by
      conv_lhs => rw [← hlin]
      rw [Mat3.cross_mulVec, hco]
    show SE3.act ⟨T.rot.transpose, -(T.rot.transpose.mulVec T.trans)⟩ _ = f
    simp only [SE3.act, Mat3.mulVec_add, hlin, hang, Vec3.cross_neg_left, hcross2]
    ext
    · rfl
    · rfl
    · rfl
    · simp only [Vec3.add_def, Vec3.neg_def]; ring
    · simp only [Vec3.add_def, Vec3.neg_def]; ring
    · simp only [Vec3.add_def, Vec3.neg_def]; ring

/-- Witness for C9: the round-trip at the concrete transform given by a
90-degree rotation about z with translation (1,2,3), and a concrete force. -/
theorem C9_force_transport_id_roundtrip_witness :
    IsRotMat (SE3.mk ⟨0, -1, 0, 1, 0, 0, 0, 0, 1⟩ ⟨1, 2, 3⟩).rot ∧
      ((SE3.mk ⟨0, -1, 0, 1, 0, 0, 0, 0, 1⟩ ⟨1, 2, 3⟩).inv).act
          ((SE3.mk ⟨0, -1, 0, 1, 0, 0, 0, 0, 1⟩ ⟨1, 2, 3⟩).act ⟨⟨4, 5, 6⟩, ⟨7, 8, 9⟩⟩) =
        ⟨⟨4, 5, 6⟩, ⟨7, 8, 9⟩⟩ := by
  have hR : IsRotMat (SE3.mk ⟨0, -1, 0, 1, 0, 0, 0, 0, 1⟩ ⟨1, 2, 3⟩).rot := by
    constructor
    · ext <;> simp only [Mat3.transpose, Mat3.mul_entries, Mat3.mul, Mat3.one_entries, Mat3.one] <;>
        norm_num
    · simp only [Mat3.det]; norm_num
  exact ⟨hR, C9_force_transport_id_roundtrip.2 _ _ hR⟩

/-- C1: the claim says the kinematics refresh at the start of `Simu.step` is
invoked with the call's own `(q, vq)` and that no module-level variable is
read.  In the code (`src/simu.py` line 72) the refresh is invoked with the
*module-level* variable `v`, not the argument `vq`: whenever that variable is
defined, the refresh receives `(q, v_global)`; when it is undefined the
sub-step raises `NameError` before doing anything.  Concretely, with the
global set to `[5]` and `vq = [0]`, the refresh is invoked with velocity
`[5] ≠ [0]`. -/
theorem C1_kinematics_uses_module_level_v :
    (∀ (E : Engine) (sim : Simu) (gv q vq tauq : List ℝ) (dtArg : Option ℝ),
        (sim.step E (some gv) q vq tauq dtArg).fkCall = some (q, gv)) ∧
    (∀ (E : Engine) (sim : Simu) (q vq tauq : List ℝ) (dtArg : Option ℝ),
        (sim.step E none q vq tauq dtArg).res = .error .nameError) ∧
    (simW.step engOK (some [5]) [0] [0] [0] none).fkCall = some ([0], [5]) ∧
    ([5] : List ℝ) ≠ [0] := by
  refine ⟨fun E sim gv q vq tauq dtArg => Simu.step_fkCall E sim gv q vq tauq dtArg,
    fun E sim q vq tauq dtArg => rfl,
    Simu.step_fkCall engOK simW [5] [0] [0] [0] none, ?_⟩
  intro h
  have := List.head_eq_of_cons_eq h
  norm_num at this

/-- C2 (amended): failures inside the kinematics refresh or the
forward-dynamics solve — which is where every dimension mismatch surfaces —
leave the caller's velocity object untouched, and the caller's configuration
object is never written at all; but `vq += aq*dt` (line 95) mutates the
caller's velocity object *in place* before the configuration integration, so
a failure inside the integration collaborator leaves the caller's velocity
already advanced to `vq + aq·dt`. -/
theorem C2_failure_leaves_velocity_object (E : Engine) (sim : Simu)
    (gv q vq tauq : List ℝ) (dtArg : Option ℝ) :
    ((sim.step E none q vq tauq dtArg).res = .error .nameError ∧
      (sim.step E none q vq tauq dtArg).vqObj = vq) ∧
    (∀ e, E.fk q gv = .error e →
      (sim.step E (some gv) q vq tauq dtArg).res = .error e ∧
      (sim.step E (some gv) q vq tauq dtArg).vqObj = vq) ∧
    (∀ data e, E.fk q gv = .ok data →
      E.aba q vq tauq (sim.stepForces data) = .error e →
      (sim.step E (some gv) q vq tauq dtArg).res = .error e ∧
      (sim.step E (some gv) q vq tauq dtArg).vqObj = vq) ∧
    (∀ data aq e, E.fk q gv = .ok data →
      E.aba q vq tauq (sim.stepForces data) = .ok aq →
      E.integrate q (listSMul (dtArg.getD sim.dt)
          (listAdd vq (listSMul (dtArg.getD sim.dt) aq))) = .error e →
      (sim.step E (some gv) q vq tauq dtArg).res = .error e ∧
      (sim.step E (some gv) q vq tauq dtArg).vqObj =
        listAdd vq (listSMul (dtArg.getD sim.dt) aq)) := by
  refine ⟨⟨rfl, rfl⟩, ?_, ?_, ?_⟩
  · intro e hfk
    rw [Simu.step_fk_error vq tauq dtArg hfk]
    exact ⟨rfl, rfl⟩
  · intro data e hfk hab
    rw [Simu.step_aba_error hfk hab]
    exact ⟨rfl, rfl⟩
  · intro data aq e hfk hab hint
    rw [Simu.step_int_error hfk hab hint]
    exact ⟨rfl, rfl⟩

/-- Witness for C2: with an engine whose kinematics refresh rejects the
input, the sub-step fails and the caller's velocity object still holds its
original value. -/
theorem C2_failure_leaves_velocity_object_witness :
    (simW.step engFkFail (some [0]) [0] [5] [0] none).res = .error .dimMismatch ∧
    (simW.step engFkFail (some [0]) [0] [5] [0] none).vqObj = [5] :=
  (C2_failure_leaves_velocity_object engFkFail simW [0] [0] [5] [0] none).2.1
    .dimMismatch rfl

/-- Counterexample to C2 as stated: with an engine whose integration
collaborator fails, the sub-step fails but the caller's velocity object is
*not* left unmodified — it has been advanced in place from `[0]` to
`[0 + 1·1] = [1]` before the failure. -/
theorem C2_counterexample :
    (simW.step engIntFail (some [0]) [0] [0] [0] (some 1)).res = .error .other ∧
    (simW.step engIntFail (some [0]) [0] [0] [0] (some 1)).vqObj ≠ [0] := by
  have hfk : engIntFail.fk [0] [0] = .ok dataW := rfl
  have hab : engIntFail.aba [0] [0] [0] (simW.stepForces dataW) = .ok [1] := rfl
  have hint : engIntFail.integrate [0] (listSMul ((some (1 : ℝ)).getD simW.dt)
      (listAdd [0] (listSMul ((some (1 : ℝ)).getD simW.dt) [1]))) = .error .other := rfl
  rw [Simu.step_int_error hfk hab hint]
  refine ⟨rfl, ?_⟩
  show listAdd [0] (listSMul ((some (1 : ℝ)).getD simW.dt) [1]) ≠ [0]
  simp only [listAdd, listSMul, List.map, List.zipWith]
  intro h
  have := List.head_eq_of_cons_eq h
  norm_num at this

/-- C4: one sub-step is semi-implicit Euler in exactly the claimed order:
first the velocity is advanced with the acceleration returned by the
forward-dynamics solve (`vq += aq*dt`, line 95), then the configuration is
produced by handing the *already-updated* velocity (times `dt`) to the
collaborator's manifold integration primitive (`q = se3.integrate(model, q,
vq*dt)`, line 96), and the returned pair is the integrated configuration
with that updated velocity. -/
theorem C4_semi_implicit_euler_order (E : Engine) (sim : Simu)
    (gv q vq tauq : List ℝ) (dtArg : Option ℝ) (data : Data) (aq : List ℝ)
    (hfk : E.fk q gv = .ok data)
    (hab : E.aba q vq tauq (sim.stepForces data) = .ok aq) :
    (sim.step E (some gv) q vq tauq dtArg).res =
      match E.integrate q (listSMul (dtArg.getD sim.dt)
          (listAdd vq (listSMul (dtArg.getD sim.dt) aq))) with
      | .ok q2 => .ok (q2, listAdd vq (listSMul (dtArg.getD sim.dt) aq))
      | .error e => .error e := by
  cases hint : E.integrate q (listSMul (dtArg.getD sim.dt)
      (listAdd vq (listSMul (dtArg.getD sim.dt) aq))) with
  | error e => rw [Simu.step_int_error hfk hab hint]
  | ok q2 => rw [Simu.step_ok hfk hab hint]

/-- Witness for C4: with the all-succeeding engine, a concrete sub-step
returns the integrated configuration `[2]` paired with the velocity
`[0] + 1·[1] = [1]`. -/
theorem C4_semi_implicit_euler_order_witness :
    (simW.step engOK (some [0]) [0] [0] [0] (some 1)).res =
      .ok ([2], listAdd [0] (listSMul 1 [1])) :=
  C4_semi_implicit_euler_order engOK simW [0] [0] [0] [0] (some 1) dataW [1] rfl rfl

/-- C6: the code contains no finiteness check at all — whenever the three
collaborators succeed, the sub-step returns successfully, whatever the
acceleration values are; there is no code path on which the stepper itself
rejects a computed acceleration or velocity (no `NumericalDivergence`
exists). -/
theorem C6_no_finiteness_check (E : Engine) (sim : Simu)
    (gv q vq tauq : List ℝ) (dtArg : Option ℝ) (data : Data) (aq q2 : List ℝ)
    (hfk : E.fk q gv = .ok data)
    (hab : E.aba q vq tauq (sim.stepForces data) = .ok aq)
    (hint : E.integrate q (listSMul (dtArg.getD sim.dt)
        (listAdd vq (listSMul (dtArg.getD sim.dt) aq))) = .ok q2) :
    (sim.step E (some gv) q vq tauq dtArg).res =
      .ok (q2, listAdd vq (listSMul (dtArg.getD sim.dt) aq)) := by
  rw [Simu.step_ok hfk hab hint]

/-- Witness for C6: an engine reporting the enormous acceleration `[10⁹]`
(standing in for a diverged value) — the sub-step succeeds and hands the
caller the velocity advanced by it, unchecked. -/
theorem C6_no_finiteness_check_witness :
    (simW.step engBig (some [0]) [0] [0] [0] (some 1)).res =
      .ok ([0], listAdd [0] (listSMul 1 [1000000000])) :=
  C6_no_finiteness_check engBig simW [0] [0] [0] [0] (some 1) dataW
    [1000000000] [0] rfl rfl rfl

/-- C3: for each contact frame independently — if the current pose of that
frame equals its recorded rest pose exactly (and the rest pose is a genuine
rigid transform), the reduced displacement vector computed by the sub-step
for that frame is the zero vector, and the spring-controlled components
1, 2, 3 (lateral/vertical linear parts and the roll torque) of that frame's
local-frame spatial force written by the sub-step are exactly zero — for any
stiffness matrices held by the stepper, and with no condition on the other
frame. -/
theorem C3_zero_displacement_zero_force (E : Engine) (sim : Simu)
    (gv q vq tauq : List ℝ) (dtArg : Option ℝ) (data : Data)
    (hfk : E.fk q gv = .ok data) :
    (data.oMf sim.RF = sim.Mrf0 → IsRotMat sim.Mrf0.rot →
      footDisp (sim.Mrf0.inv * data.oMf sim.RF) = Vec3.zero ∧
      (toForce ((sim.step E (some gv) q vq tauq dtArg).sim.frf)).lin.y = 0 ∧
      (toForce ((sim.step E (some gv) q vq tauq dtArg).sim.frf)).lin.z = 0 ∧
      (toForce ((sim.step E (some gv) q vq tauq dtArg).sim.frf)).ang.x = 0) ∧
    (data.oMf sim.LF = sim.Mlf0 → IsRotMat sim.Mlf0.rot →
      footDisp (sim.Mlf0.inv * data.oMf sim.LF) = Vec3.zero ∧
      (toForce ((sim.step E (some gv) q vq tauq dtArg).sim.flf)).lin.y = 0 ∧
      (toForce ((sim.step E (some gv) q vq tauq dtArg).sim.flf)).lin.z = 0 ∧
      (toForce ((sim.step E (some gv) q vq tauq dtArg).sim.flf)).ang.x = 0) := by
  constructor
  · intro hrf hrrot
    have hdr : footDisp (sim.Mrf0.inv * data.oMf sim.RF) = Vec3.zero := by
      rw [hrf, SE3.inv_mul_self hrrot, footDisp_one]
    have hfrf : (sim.step E (some gv) q vq tauq dtArg).sim.frf = sim.frfNew data :=
      Simu.step_frf vq tauq dtArg hfk
    refine ⟨hdr, ?_, ?_, ?_⟩
    · show (sim.step E (some gv) q vq tauq dtArg).sim.frf.c1 = 0
      rw [hfrf]
      show (sim.Krf.mulVec (footDisp (sim.Mrf0.inv * data.oMf sim.RF))).x = 0
      rw [hdr, Mat3.mulVec_zero]; rfl
    · show (sim.step E (some gv) q vq tauq dtArg).sim.frf.c2 = 0
      rw [hfrf]
      show (sim.Krf.mulVec (footDisp (sim.Mrf0.inv * data.oMf sim.RF))).y = 0
      rw [hdr, Mat3.mulVec_zero]; rfl
    · show (sim.step E (some gv) q vq tauq dtArg).sim.frf.c3 = 0
      rw [hfrf]
      show (sim.Krf.mulVec (footDisp (sim.Mrf0.inv * data.oMf sim.RF))).z = 0
      rw [hdr, Mat3.mulVec_zero]; rfl
  · intro hlf hlrot
    have hdl : footDisp (sim.Mlf0.inv * data.oMf sim.LF) = Vec3.zero := by
      rw [hlf, SE3.inv_mul_self hlrot, footDisp_one]
    have hflf : (sim.step E (some gv) q vq tauq dtArg).sim.flf = sim.flfNew data :=
      Simu.step_flf vq tauq dtArg hfk
    refine ⟨hdl, ?_, ?_, ?_⟩
    · show (sim.step E (some gv) q vq tauq dtArg).sim.flf.c1 = 0
      rw [hflf]
      show (sim.Klf.mulVec (footDisp (sim.Mlf0.inv * data.oMf sim.LF))).x = 0
      rw [hdl, Mat3.mulVec_zero]; rfl
    · show (sim.step E (some gv) q vq tauq dtArg).sim.flf.c2 = 0
      rw [hflf]
      show (sim.Klf.mulVec (footDisp (sim.Mlf0.inv * data.oMf sim.LF))).y = 0
      rw [hdl, Mat3.mulVec_zero]; rfl
    · show (sim.step E (some gv) q vq tauq dtArg).sim.flf.c3 = 0
      rw [hflf]
      show (sim.Klf.mulVec (footDisp (sim.Mlf0.inv * data.oMf sim.LF))).z = 0
      rw [hdl, Mat3.mulVec_zero]; rfl

/-- Witness for C3: the concrete stepper whose right rest pose was recorded
from `dataW` (identity placements), stepped against an engine that reproduces
those placements — the right-frame displacement and spring force components
vanish, via the right-frame half of the theorem alone. -/
theorem C3_zero_displacement_zero_force_witness :
    engOK.fk [0] [0] = .ok dataW ∧
    dataW.oMf simW.RF = simW.Mrf0 ∧ IsRotMat simW.Mrf0.rot ∧
    footDisp (simW.Mrf0.inv * dataW.oMf simW.RF) = Vec3.zero ∧
    (toForce ((simW.step engOK (some [0]) [0] [0] [0] none).sim.frf)).lin.y = 0 ∧
    (toForce ((simW.step engOK (some [0]) [0] [0] [0] none).sim.frf)).ang.x = 0 := by
  have hrot : IsRotMat simW.Mrf0.rot := isRotMat_one
  have h := (C3_zero_displacement_zero_force engOK simW [0] [0] [0] [0] none dataW
    rfl).1 rfl hrot
  exact ⟨rfl, rfl, hrot, h.1, h.2.1, h.2.2.2⟩

/-- C5 (amended): `Simu.simu` is exactly `ndt` sequential calls to
`Simu.step`, each of duration `dt/ndt`, threading the updated configuration
and velocity (and the stepper object) through, and `ndt · (dt/ndt) = dt`
whenever `ndt` is positive; with `ndt = 0` no sub-step runs and no time is
simulated. -/
theorem C5_full_step_is_substep_sequence (E : Engine) (sim : Simu)
    (gv : Option (List ℝ)) (q v tauq : List ℝ) :
    Simu.simu E sim gv q v tauq =
      Simu.stepSeq E gv tauq (sim.dt / (sim.ndt : ℝ)) sim.ndt sim q v ∧
    (0 < sim.ndt → (sim.ndt : ℝ) * (sim.dt / (sim.ndt : ℝ)) = sim.dt) := by
  constructor
  · exact Simu.simuLoop_eq_stepSeq E gv tauq sim.dt sim.ndt sim.ndt sim q v rfl rfl
  · intro h
    have hn : (sim.ndt : ℝ) ≠ 0 := Nat.cast_ne_zero.mpr h.ne'
    rw [mul_comm, div_mul_cancel₀ _ hn]

/-- Witness for C5: the concrete stepper with `dt = 1`, `ndt = 2` — two
sub-steps of duration `1/2` add up to the full step duration. -/
theorem C5_full_step_is_substep_sequence_witness :
    0 < simW.ndt ∧ (simW.ndt : ℝ) * (simW.dt / (simW.ndt : ℝ)) = simW.dt :=
  ⟨by decide, (C5_full_step_is_substep_sequence engOK simW (some []) [] [] []).2
    (by decide)⟩

/-- Counterexample to C5 as stated: with a sub-step count of zero the full
step performs no sub-step at all and returns the state unchanged, so the
total simulated time is `0·(dt/0) = 0`, not the step duration `dt = 1` — the
"total simulated time equals dt regardless of ndt" clause fails at
`ndt = 0`. -/
theorem C5_counterexample :
    Simu.simu engOK simW0 (some [7]) [3] [4] [5] = (.ok ([3], [4]), simW0) ∧
    simW0.ndt = 0 ∧ simW0.dt = 1 ∧
    (simW0.ndt : ℝ) * (simW0.dt / (simW0.ndt : ℝ)) ≠ simW0.dt := by
  refine ⟨rfl, rfl, rfl, ?_⟩
  show ((0 : ℕ) : ℝ) * ((1 : ℝ) / ((0 : ℕ) : ℝ)) ≠ (1 : ℝ)
  norm_num

/-- C7: the two rest poses and the two stiffness matrices recorded at
construction are unchanged by any sequence of `step`/`simu` calls; indeed a
call sequence can only ever rewrite the two force buffers and the
`forces`/`aq` attributes of the stepper object. -/
theorem C7_rest_pose_stiffness_immutable (E : Engine) (calls : List SimCall)
    (sim : Simu) :
    (runCalls E sim calls).Mrf0 = sim.Mrf0 ∧
    (runCalls E sim calls).Mlf0 = sim.Mlf0 ∧
    (runCalls E sim calls).Krf = sim.Krf ∧
    (runCalls E sim calls).Klf = sim.Klf ∧
    ∃ b1 b2 fo a, runCalls E sim calls =
      { sim with frf := b1, flf := b2, forces := fo, aq := a } := by
  obtain ⟨b1, b2, fo, a, h⟩ := runCalls_fields E calls sim
  rw [h]
  exact ⟨rfl, rfl, rfl, rfl, b1, b2, fo, a, rfl⟩

/-- C8: for a fixed stiffness matrix, the spring-controlled components 1, 2,
3 of the local-frame spatial force are linear in the reduced displacement
vector: scaling the displacement by `k` scales exactly those components by
`k` (whatever values the reused buffer carries elsewhere). -/
theorem C8_spring_force_linear_in_displacement (K : Mat3) (d : Vec3) (k : ℝ)
    (b1 b2 : Buf6) :
    (toForce (writeSpring b1 (K.mulVec (Vec3.smul k d)))).lin.y =
      k * (toForce (writeSpring b2 (K.mulVec d))).lin.y ∧
    (toForce (writeSpring b1 (K.mulVec (Vec3.smul k d)))).lin.z =
      k * (toForce (writeSpring b2 (K.mulVec d))).lin.z ∧
    (toForce (writeSpring b1 (K.mulVec (Vec3.smul k d)))).ang.x =
      k * (toForce (writeSpring b2 (K.mulVec d))).ang.x := by
  refine ⟨?_, ?_, ?_⟩ <;>
    simp only [toForce, writeSpring, Mat3.mulVec, Vec3.smul] <;> ring

/-- C10: the two force buffers are zero-initialised at construction and every
sub-step writes only components 1, 2, 3, so after any sequence of
`step`/`simu` calls components 0, 4 and 5 of both buffers — and hence the
primary-axis linear term and the pitch and yaw torques of both local-frame
spring forces — are exactly zero. -/
theorem C10_carried_over_components_are_zero (E : Engine) (robot : RobotModel)
    (data0 : Data) (dt : ℝ) (ndt : ℕ) (calls : List SimCall) :
    (runCalls E (Simu.init robot data0 dt ndt) calls).frf.c0 = 0 ∧
    (runCalls E (Simu.init robot data0 dt ndt) calls).frf.c4 = 0 ∧
    (runCalls E (Simu.init robot data0 dt ndt) calls).frf.c5 = 0 ∧
    (runCalls E (Simu.init robot data0 dt ndt) calls).flf.c0 = 0 ∧
    (runCalls E (Simu.init robot data0 dt ndt) calls).flf.c4 = 0 ∧
    (runCalls E (Simu.init robot data0 dt ndt) calls).flf.c5 = 0 ∧
    (toForce (runCalls E (Simu.init robot data0 dt ndt) calls).frf).lin.x = 0 ∧
    (toForce (runCalls E (Simu.init robot data0 dt ndt) calls).frf).ang.y = 0 ∧
    (toForce (runCalls E (Simu.init robot data0 dt ndt) calls).frf).ang.z = 0 ∧
    (toForce (runCalls E (Simu.init robot data0 dt ndt) calls).flf).lin.x = 0 ∧
    (toForce (runCalls E (Simu.init robot data0 dt ndt) calls).flf).ang.y = 0 ∧
    (toForce (runCalls E (Simu.init robot data0 dt ndt) calls).flf).ang.z = 0 := by
  have h := runCalls_buf_untouched E calls (Simu.init robot data0 dt ndt)
  exact ⟨h.1, h.2.1, h.2.2.1, h.2.2.2.1, h.2.2.2.2.1, h.2.2.2.2.2,
    h.1, h.2.1, h.2.2.1, h.2.2.2.1, h.2.2.2.2.1, h.2.2.2.2.2⟩

end SimpleBiped
